import Mathlib

/-!
Shallow embedding of the paging subsystem of the kraken kernel
(`src/kernel/mm/paging.c`) together with proofs about its operations.

Machine words (`uint64_t` virtual/physical addresses and page-table entries)
are embedded as `Nat`; physical memory is a map from byte addresses of
64-bit-aligned words to their values, and the page-table hierarchy lives in
that memory exactly as in the C code: a table is a physical base address,
and the entry for index `i` is the word at `base + 8 * i`.
-/

namespace Kraken

/-- Modelled from the spec: `PAGE_SIZE` comes from the header `mm/paging.h`,
which is not part of the provided sources; the spec fixes 4 KiB pages. -/
def PAGE_SIZE : Nat := 4096

/-- Modelled from the spec: the low-order in-page byte offset is 12 bits
(4 KiB pages), per the x86-64 layout the spec mandates. -/
def PAGE_OFFSET_SIZE : Nat := 12

/-- Modelled from the spec: each level index is 9 bits (512 entries per
table, 4-level x86-64 model). -/
def PAGE_IDX_SIZE : Nat := 9

/-- Modelled from the spec: mask extracting one 9-bit table index. -/
def PAGE_IDX_MASK : Nat := 511

/-- Modelled from the spec: the leaf table level (level numbering makes
`paging_vaddr_idx vaddr PML1` select bits 12..20 of the address). -/
def PML1 : Nat := 0

/-- Modelled from the spec: the top (root) table level. -/
def PML4 : Nat := 3

/-- Modelled from the spec: the present flag is bit 0 of an entry. -/
def PAGE_PRESENT : Nat := 1

/-- Modelled from the spec: the address field of an entry occupies bits
12..51 of the 64-bit word (the x86-64 entry layout the spec mandates). -/
def PAGE_ADDR : Nat := 0xffffffffff000

/-- Bitwise complement on 64-bit words (`~x` in C on a `uint64_t`). -/
def not64 (x : Nat) : Nat := (2 ^ 64 - 1) ^^^ x

/-- The `ALIGN_DOWN` macro from `mem/mem.h`: `(addr) & ~(align - 1)`. -/
def ALIGN_DOWN (addr align : Nat) : Nat := addr &&& not64 (align - 1)

/-- Machine state: physical memory (a 64-bit word per 8-byte-aligned byte
address), the physical allocator's next free page frame, the trace of
virtual addresses invalidated in the local TLB by `invlpg`, and the `cr3`
control register naming the active root table. -/
structure MachineState where
  mem : Nat → Nat
  nextFree : Nat
  tlbInv : List Nat
  cr3 : Nat

/-- Read the 64-bit word at physical address `p` (`*pentry` in C). -/
def readEntry (s : MachineState) (p : Nat) : Nat := s.mem p

/-- Write the 64-bit word at physical address `p` (`*pentry = v` in C). -/
def writeEntry (s : MachineState) (p v : Nat) : MachineState :=
  { s with mem := fun a => if a = p then v else s.mem a }

/-- `paging_vaddr_idx`: the pml index of `vaddr` at the given level. -/
def paging_vaddr_idx (vaddr level : Nat) : Nat :=
  (vaddr >>> (PAGE_IDX_SIZE * level + PAGE_OFFSET_SIZE)) &&& PAGE_IDX_MASK

/-- `paging_check_flags`: true iff all of `flags` are set in the entry at
`p`; refuses (returns false) masks touching the address field. -/
def paging_check_flags (s : MachineState) (p flags : Nat) : Bool :=
  if flags &&& PAGE_ADDR ≠ 0 then false
  else (readEntry s p &&& flags) == flags

/-- `paging_set_flags`: ORs `flags` into the entry at `p`; refuses masks
touching the address field. -/
def paging_set_flags (s : MachineState) (p flags : Nat) : MachineState :=
  if flags &&& PAGE_ADDR ≠ 0 then s
  else writeEntry s p (readEntry s p ||| flags)

/-- `paging_clear_flags`: ANDs the complement of `flags` into the entry at
`p`; refuses masks touching the address field. -/
def paging_clear_flags (s : MachineState) (p flags : Nat) : MachineState :=
  if flags &&& PAGE_ADDR ≠ 0 then s
  else writeEntry s p (readEntry s p &&& not64 flags)

/-- `paging_get_paddr`: the physical address stored in the entry at `p`. -/
def paging_get_paddr (s : MachineState) (p : Nat) : Nat :=
  readEntry s p &&& PAGE_ADDR

/-- `paging_set_paddr`: stores `paddr` in the address field of the entry at
`p`, aligning it down to a page boundary first if needed. -/
def paging_set_paddr (s : MachineState) (p paddr : Nat) : MachineState :=
  let paddr := if paddr % PAGE_SIZE ≠ 0 then ALIGN_DOWN paddr PAGE_SIZE else paddr
  writeEntry s p ((readEntry s p &&& not64 PAGE_ADDR) ||| (paddr &&& PAGE_ADDR))

/-- Modelled from the spec: the external physical allocator `pmm_alloc`
hands out `num` fresh page frames starting at the next free frame. -/
def pmm_alloc (s : MachineState) (num : Nat) : Nat × MachineState :=
  (s.nextFree, { s with nextFree := s.nextFree + num * PAGE_SIZE })

/-- `paging_create`: allocates one frame and runs
`memset(ptable, 0, sizeof(ptable))`.  `ptable` is a pointer, so `sizeof`
yields the pointer size (8 bytes): only the first 64-bit entry of the new
table is cleared, the other 511 entries keep whatever the frame held. -/
def paging_create (s : MachineState) : Nat × MachineState :=
  let a := pmm_alloc s 1
  (a.1, writeEntry a.2 a.1 0)

/-- The loop of `paging_walk`: `for (uint8_t i = PML4; i >= level; i--)`,
descending from level `i` at table `curr_table`.  Returns the entry
pointer for `vaddr` at `level`, or `none` for the two error returns (loop
fall-through, and a non-present intermediate entry with `create` false). -/
def paging_walk_loop (vaddr level : Nat) (create : Bool) :
    Nat → Nat → MachineState → Option Nat × MachineState
  | curr_table, 0, s =>
    if 0 < level then (none, s)
    else (some (curr_table + 8 * paging_vaddr_idx vaddr 0), s)
  | curr_table, i + 1, s =>
    if i + 1 < level then (none, s)
    else
      let pentry := curr_table + 8 * paging_vaddr_idx vaddr (i + 1)
      if i + 1 = level then (some pentry, s)
      else if paging_check_flags s pentry PAGE_PRESENT then
        paging_walk_loop vaddr level create (paging_get_paddr s pentry) i s
      else if create then
        let a := paging_create s
        let s2 := paging_set_paddr a.2 pentry a.1
        let s3 := paging_set_flags s2 pentry PAGE_PRESENT
        paging_walk_loop vaddr level create a.1 i s3
      else (none, s)

/-- `paging_walk`: null-root check, alignment correction of `vaddr`, then
the descent loop starting at `PML4`.  A null pointer is address 0. -/
def paging_walk (s : MachineState) (pml4_table vaddr level : Nat)
    (create : Bool) : Option Nat × MachineState :=
  if pml4_table = 0 then (none, s)
  else
    let vaddr := if vaddr % PAGE_SIZE ≠ 0 then ALIGN_DOWN vaddr PAGE_SIZE else vaddr
    paging_walk_loop vaddr level create pml4_table PML4 s

/-- Outcome of `__paging_map`, which in C only logs: `nullRoot` for the
null-root early return, `conflict` for the already-mapped early return,
`walkNull` for a null entry pointer from the walk (the C code would then
dereference null in `paging_check_flags`), `ok` on success. -/
inductive MapResult where
  | nullRoot | conflict | walkNull | ok
deriving DecidableEq

/-- `__paging_map`: maps `vaddr` to `paddr` with `flags` under the root
`pml4_table`, refusing to overwrite a present leaf entry. -/
def __paging_map (s : MachineState) (pml4_table vaddr paddr flags : Nat) :
    MachineState × MapResult :=
  if pml4_table = 0 then (s, .nullRoot)
  else
    let vaddr := if vaddr % PAGE_SIZE ≠ 0 then ALIGN_DOWN vaddr PAGE_SIZE else vaddr
    let paddr := if paddr % PAGE_SIZE ≠ 0 then ALIGN_DOWN paddr PAGE_SIZE else paddr
    match paging_walk s pml4_table vaddr PML1 true with
    | (none, s1) => (s1, .walkNull)
    | (some pentry, s1) =>
      if paging_check_flags s1 pentry PAGE_PRESENT then (s1, .conflict)
      else
        let s2 := paging_set_flags s1 pentry flags
        (paging_set_paddr s2 pentry paddr, .ok)

/-- Outcome of `__paging_unmap`: `nullRoot` for the null-root early
return; `nullStore` when the lookup walk returned null and the C code
executed `*pentry = 0` through that null pointer (undefined behaviour,
modelled as this marker with memory left unchanged); `ok` otherwise. -/
inductive UnmapResult where
  | nullRoot | nullStore | ok
deriving DecidableEq

/-- `__paging_unmap`: zeroes the leaf entry for `vaddr` under the root
`pml4_table`.  The source stores through the walk's result pointer with no
null check. -/
def __paging_unmap (s : MachineState) (pml4_table vaddr : Nat) :
    MachineState × UnmapResult :=
  if pml4_table = 0 then (s, .nullRoot)
  else
    let vaddr := if vaddr % PAGE_SIZE ≠ 0 then ALIGN_DOWN vaddr PAGE_SIZE else vaddr
    match paging_walk s pml4_table vaddr PML1 false with
    | (none, s1) => (s1, .nullStore)
    | (some pentry, s1) => (writeEntry s1 pentry 0, .ok)

/-- `paging_cr3`: the root table currently in `cr3`, aligned down. -/
def paging_cr3 (s : MachineState) : Nat := ALIGN_DOWN s.cr3 PAGE_SIZE

/-- `paging_unmap`: unmaps `vaddr` under the root currently in `cr3`, then
invalidates `vaddr` in the local TLB with `invlpg`. -/
def paging_unmap (s : MachineState) (vaddr : Nat) : MachineState × UnmapResult :=
  let r := __paging_unmap s (paging_cr3 s) vaddr
  ({ r.1 with tlbInv := vaddr :: r.1.tlbInv }, r.2)

/-- Modelled from the spec: the page-fault error-code bit masks from the
missing header, per the x86-64 layout (Intel SDM section 4.7) the source
comments cite: present bit 0, write bit 1, user bit 2, reserved bit 3,
instruction fetch bit 4, protection key bit 5, SGX bit 15. -/
def PAGE_FAULT_P_MASK : Nat := 0x1

/-- Modelled from the spec: write-access bit of the fault error code. -/
def PAGE_FAULT_WR_MASK : Nat := 0x2

/-- Modelled from the spec: user-mode bit of the fault error code. -/
def PAGE_FAULT_US_MASK : Nat := 0x4

/-- Modelled from the spec: reserved-bit-violation bit of the error code. -/
def PAGE_FAULT_RSVD_MASK : Nat := 0x8

/-- Modelled from the spec: instruction-fetch bit of the error code. -/
def PAGE_FAULT_IF_MASK : Nat := 0x10

/-- Modelled from the spec: protection-key bit of the error code. -/
def PAGE_FAULT_PK_MASK : Nat := 0x20

/-- Modelled from the spec: SGX bit of the fault error code. -/
def PAGE_FAULT_SGX_MASK : Nat := 0x8000

/-- One diagnostic line emitted by the page-fault handler. -/
inductive PFLine where
  | faultAddr (cr2 : Nat)
  | errCode (code : Nat)
  | protViolation | nonPresent
  | writeAccess | readAccess
  | userMode | supervisorMode
  | reservedBit | noReservedBit
  | instrFetch | noInstrFetch
  | pkViolation | noPkViolation
  | sgxViolation | noSgx
deriving DecidableEq

/-- Observable behaviour of the page-fault handler: the diagnostic lines
logged, in order, and whether it ended in the non-returning `panic`. -/
structure PFResult where
  lines : List PFLine
  panicked : Bool
deriving DecidableEq

/-- `page_fault_intr_handler`: logs the faulting address (from `cr2`) and
the error code, decodes each error-code bit into one line, then panics. -/
def page_fault_intr_handler (cr2 error_code : Nat) : PFResult :=
  let lines := [PFLine.faultAddr cr2, PFLine.errCode error_code]
  let lines := lines ++
    [if error_code &&& PAGE_FAULT_P_MASK ≠ 0 then .protViolation else .nonPresent]
  let lines := lines ++
    [if error_code &&& PAGE_FAULT_WR_MASK ≠ 0 then .writeAccess else .readAccess]
  let lines := lines ++
    [if error_code &&& PAGE_FAULT_US_MASK ≠ 0 then .userMode else .supervisorMode]
  let lines := lines ++
    [if error_code &&& PAGE_FAULT_RSVD_MASK ≠ 0 then .reservedBit else .noReservedBit]
  let lines := lines ++
    [if error_code &&& PAGE_FAULT_IF_MASK ≠ 0 then .instrFetch else .noInstrFetch]
  let lines := lines ++
    [if error_code &&& PAGE_FAULT_PK_MASK ≠ 0 then .pkViolation else .noPkViolation]
  let lines := lines ++
    [if error_code &&& PAGE_FAULT_SGX_MASK ≠ 0 then .sgxViolation else .noSgx]
  { lines := lines, panicked := true }

/-! ### Bitwise toolkit -/

theorem testBit_ge64 {x : Nat} (hx : x < 2 ^ 64) {i : Nat} (hi : 64 ≤ i) :
    x.testBit i = false :=
  Nat.testBit_lt_two_pow (lt_of_lt_of_le hx (Nat.pow_le_pow_right (by norm_num) hi))

theorem testBit_PAGE_ADDR (i : Nat) :
    PAGE_ADDR.testBit i = (decide (12 ≤ i) && decide (i < 52)) := by
  have h : PAGE_ADDR = (2 ^ 52 - 1) ^^^ (2 ^ 12 - 1) := by decide
  rw [h, Nat.testBit_xor, Nat.testBit_two_pow_sub_one, Nat.testBit_two_pow_sub_one]
  by_cases h12 : 12 ≤ i
  · by_cases h52 : i < 52
    · simp [h12, h52, show ¬ i < 12 by omega]
    · simp [h12, h52, show ¬ i < 12 by omega]
  · simp [h12, show i < 12 by omega, show i < 52 by omega]

theorem testBit_not64 {x : Nat} (hx : x < 2 ^ 64) (i : Nat) :
    (not64 x).testBit i = (decide (i < 64) && !(x.testBit i)) := by
  rw [not64, Nat.testBit_xor, Nat.testBit_two_pow_sub_one]
  by_cases h64 : i < 64
  · simp [h64]
  · simp [h64, testBit_ge64 hx (Nat.not_lt.mp h64)]

theorem PAGE_ADDR_lt : PAGE_ADDR < 2 ^ 64 := by decide

/-- Setting flags whose mask avoids the address field leaves the address
field of the word untouched. -/
theorem or_flags_and_ADDR (x f : Nat) (hf : f &&& PAGE_ADDR = 0) :
    (x ||| f) &&& PAGE_ADDR = x &&& PAGE_ADDR := by
  apply Nat.eq_of_testBit_eq
  intro i
  have hfi := congrArg (Nat.testBit · i) hf
  simp only [Nat.testBit_land, Nat.testBit_lor, Nat.zero_testBit] at hfi ⊢
  cases hA : PAGE_ADDR.testBit i <;> simp_all

/-- Clearing flags whose mask avoids the address field leaves the address
field of the word untouched. -/
theorem andnot_flags_and_ADDR (x f : Nat) (hf : f &&& PAGE_ADDR = 0)
    (hflt : f < 2 ^ 64) : (x &&& not64 f) &&& PAGE_ADDR = x &&& PAGE_ADDR := by
  apply Nat.eq_of_testBit_eq
  intro i
  have hfi := congrArg (Nat.testBit · i) hf
  simp only [Nat.testBit_land, Nat.zero_testBit, testBit_not64 hflt] at hfi ⊢
  by_cases h64 : i < 64
  · cases hA : PAGE_ADDR.testBit i <;> simp_all
  · simp [testBit_ge64 PAGE_ADDR_lt (by omega : 64 ≤ i)]

/-- The address field after `paging_set_paddr`'s store is the stored one. -/
theorem set_paddr_addr_field (x y : Nat) :
    ((x &&& not64 PAGE_ADDR) ||| (y &&& PAGE_ADDR)) &&& PAGE_ADDR
      = y &&& PAGE_ADDR := by
  apply Nat.eq_of_testBit_eq
  intro i
  simp only [Nat.testBit_land, Nat.testBit_lor, testBit_not64 PAGE_ADDR_lt]
  cases hA : PAGE_ADDR.testBit i <;> simp [hA]

/-- The bits outside the address field after `paging_set_paddr`'s store are
those of the previous word. -/
theorem set_paddr_flags_field {x : Nat} (y : Nat) (hx : x < 2 ^ 64) {i : Nat}
    (hi : i < 12 ∨ 52 ≤ i) :
    (((x &&& not64 PAGE_ADDR) ||| (y &&& PAGE_ADDR))).testBit i = x.testBit i := by
  have hA : PAGE_ADDR.testBit i = false := by
    rw [testBit_PAGE_ADDR]
    rcases hi with hi | hi
    · simp [show ¬ 12 ≤ i by omega]
    · simp [show ¬ i < 52 by omega]
  simp only [Nat.testBit_land, Nat.testBit_lor, testBit_not64 PAGE_ADDR_lt, hA]
  by_cases h64 : i < 64
  · simp [h64]
  · simp [h64, testBit_ge64 hx (by omega : 64 ≤ i)]

/-- A page-aligned physical address below `2 ^ 52` fits the address field. -/
theorem aligned_and_ADDR {pa : Nat} (h1 : pa % PAGE_SIZE = 0) (h2 : pa < 2 ^ 52) :
    pa &&& PAGE_ADDR = pa := by
  apply Nat.eq_of_testBit_eq
  intro i
  simp only [Nat.testBit_land, testBit_PAGE_ADDR]
  by_cases h12 : 12 ≤ i
  · by_cases h52 : i < 52
    · simp [h12, h52]
    · have hbit : pa.testBit i = false :=
        Nat.testBit_lt_two_pow
          (lt_of_lt_of_le h2 (Nat.pow_le_pow_right (by norm_num) (by omega)))
      simp [hbit]
  · have hpa : pa = (pa / 4096) <<< 12 := by
      rw [Nat.shiftLeft_eq]
      have h1' : pa % 4096 = 0 := h1
      have h2' : (2 : Nat) ^ 12 = 4096 := by norm_num
      rw [h2']
      omega
    have hbit : pa.testBit i = false := by
      rw [hpa, Nat.testBit_shiftLeft]
      simp [show ¬ i ≥ 12 by omega]
    simp [hbit]

/-- A word built by `__paging_map`'s two stores from a mask containing the
present bit tests present. -/
theorem present_after_store (x flags y : Nat)
    (hf : flags &&& PAGE_PRESENT = PAGE_PRESENT) :
    (((x ||| flags) &&& not64 PAGE_ADDR) ||| (y &&& PAGE_ADDR)) &&& PAGE_PRESENT
      = PAGE_PRESENT := by
  have hbit : flags.testBit 0 = true := by
    have h := congrArg (Nat.testBit · 0) hf
    simpa [PAGE_PRESENT, Nat.testBit_land, Nat.testBit_zero] using h
  apply Nat.eq_of_testBit_eq
  intro i
  rw [Nat.testBit_land]
  cases i with
  | zero =>
    have hflags2 : flags % 2 = 1 := by simpa [Nat.testBit_zero] using hbit
    have hnot : not64 PAGE_ADDR % 2 = 1 := by decide
    simp [PAGE_PRESENT, Nat.testBit_lor, Nat.testBit_land, Nat.testBit_zero,
      hflags2, hnot]
  | succ n =>
    have h1 : PAGE_PRESENT.testBit (n + 1) = false := by
      rw [PAGE_PRESENT, show (1 : Nat) = 2 ^ 0 from rfl, Nat.testBit_two_pow]
      simp
    simp [h1]

theorem ALIGN_DOWN_eq {x : Nat} (hx : x < 2 ^ 64) :
    ALIGN_DOWN x PAGE_SIZE = x - x % 4096 := by
  have hrw : x - x % 4096 = (x >>> 12) <<< 12 := by
    rw [Nat.shiftRight_eq_div_pow, Nat.shiftLeft_eq]
    have h2 : (2 : Nat) ^ 12 = 4096 := by norm_num
    rw [h2]
    omega
  have hm : PAGE_SIZE - 1 = 2 ^ 12 - 1 := by decide
  rw [hrw, ALIGN_DOWN, hm]
  apply Nat.eq_of_testBit_eq
  intro i
  rw [Nat.testBit_land, testBit_not64 (by norm_num : (2 : Nat) ^ 12 - 1 < 2 ^ 64) i,
    Nat.testBit_two_pow_sub_one, Nat.testBit_shiftLeft, Nat.testBit_shiftRight]
  by_cases h12 : i < 12
  · simp [h12, show ¬ i ≥ 12 by omega]
  · have heq : 12 + (i - 12) = i := by omega
    rw [heq]
    by_cases h64 : i < 64
    · simp [h12, h64, show i ≥ 12 by omega]
    · simp [h12, h64, show i ≥ 12 by omega, testBit_ge64 hx (by omega : 64 ≤ i)]

/-- Aligning an address that sits `d` bytes past a page boundary lands on
that boundary. -/
theorem ALIGN_DOWN_add {a d : Nat} (ha : a % PAGE_SIZE = 0) (hd : d < PAGE_SIZE)
    (hlt : a + d < 2 ^ 64) : ALIGN_DOWN (a + d) PAGE_SIZE = a := by
  rw [ALIGN_DOWN_eq hlt]
  have ha' : a % 4096 = 0 := ha
  have hd' : d < 4096 := hd
  omega

/-! ### Walk lemmas -/

theorem check_flags_congr {s t : MachineState} {p : Nat}
    (h : t.mem p = s.mem p) (f : Nat) :
    paging_check_flags t p f = paging_check_flags s p f := by
  simp [paging_check_flags, readEntry, h]

theorem get_paddr_congr {s t : MachineState} {p : Nat}
    (h : t.mem p = s.mem p) :
    paging_get_paddr t p = paging_get_paddr s p := by
  simp [paging_get_paddr, readEntry, h]

/-- A lookup-only walk (`create = false`) never mutates the state. -/
theorem walk_loop_lookup_state (vaddr level : Nat) :
    ∀ (i c : Nat) (s : MachineState),
      (paging_walk_loop vaddr level false c i s).2 = s := by
  intro i
  induction i with
  | zero =>
    intro c s
    simp only [paging_walk_loop]
    split <;> rfl
  | succ n ih =>
    intro c s
    simp only [paging_walk_loop]
    split
    · rfl
    · split
      · rfl
      · split
        · exact ih _ _
        · rfl

/-- A creating walk behaves exactly like a lookup walk whenever the lookup
walk already succeeds (no intermediate table is missing). -/
theorem walk_loop_create_of_lookup (vaddr level : Nat) :
    ∀ (i c p : Nat) (s : MachineState),
      (paging_walk_loop vaddr level false c i s).1 = some p →
      paging_walk_loop vaddr level true c i s = (some p, s) := by
  intro i
  induction i with
  | zero =>
    intro c p s hw
    simp only [paging_walk_loop] at hw ⊢
    by_cases h1 : 0 < level
    · rw [if_pos h1] at hw
      exact absurd hw (by simp)
    · rw [if_neg h1] at hw ⊢
      simp only [Option.some.injEq] at hw
      rw [hw]
  | succ n ih =>
    intro c p s hw
    simp only [paging_walk_loop] at hw ⊢
    by_cases h1 : n + 1 < level
    · rw [if_pos h1] at hw
      exact absurd hw (by simp)
    · rw [if_neg h1] at hw ⊢
      by_cases h2 : n + 1 = level
      · rw [if_pos h2] at hw ⊢
        simp only [Option.some.injEq] at hw
        rw [hw]
      · rw [if_neg h2] at hw ⊢
        by_cases h3 : paging_check_flags s
            (c + 8 * paging_vaddr_idx vaddr (n + 1)) PAGE_PRESENT = true
        · rw [if_pos h3] at hw ⊢
          exact ih _ _ _ hw
        · rw [if_neg h3] at hw
          exact absurd hw (by simp)

/-- A successful lookup walk is untouched by overwriting the word at the
entry it resolves, provided that entry was not present: the walk rereads
only present entries, so the written word is off the walk's path. -/
theorem walk_loop_lookup_congr (vaddr level : Nat) :
    ∀ (i c p : Nat) (s t : MachineState),
      (paging_walk_loop vaddr level false c i s).1 = some p →
      paging_check_flags s p PAGE_PRESENT = false →
      (∀ a, a ≠ p → t.mem a = s.mem a) →
      paging_walk_loop vaddr level false c i t = (some p, t) := by
  intro i
  induction i with
  | zero =>
    intro c p s t hw hp hmem
    simp only [paging_walk_loop] at hw ⊢
    by_cases h1 : 0 < level
    · rw [if_pos h1] at hw
      exact absurd hw (by simp)
    · rw [if_neg h1] at hw ⊢
      simp only [Option.some.injEq] at hw
      rw [hw]
  | succ n ih =>
    intro c p s t hw hp hmem
    simp only [paging_walk_loop] at hw ⊢
    by_cases h1 : n + 1 < level
    · rw [if_pos h1] at hw
      exact absurd hw (by simp)
    · rw [if_neg h1] at hw ⊢
      by_cases h2 : n + 1 = level
      · rw [if_pos h2] at hw ⊢
        simp only [Option.some.injEq] at hw
        rw [hw]
      · rw [if_neg h2] at hw ⊢
        by_cases h3 : paging_check_flags s
            (c + 8 * paging_vaddr_idx vaddr (n + 1)) PAGE_PRESENT = true
        · have hentry : c + 8 * paging_vaddr_idx vaddr (n + 1) ≠ p := by
            intro heq
            rw [heq] at h3
            rw [h3] at hp
            exact absurd hp (by simp)
          have hmem' : t.mem (c + 8 * paging_vaddr_idx vaddr (n + 1))
              = s.mem (c + 8 * paging_vaddr_idx vaddr (n + 1)) :=
            hmem _ hentry
          rw [check_flags_congr hmem', if_pos h3, get_paddr_congr hmem']
          rw [if_pos h3] at hw
          exact ih _ _ _ _ hw hp hmem
        · rw [if_neg h3] at hw
          exact absurd hw (by simp)

/-- Lifting of `walk_loop_lookup_state` to `paging_walk`. -/
theorem paging_walk_lookup_state (s : MachineState) (root vaddr level : Nat) :
    (paging_walk s root vaddr level false).2 = s := by
  unfold paging_walk
  split
  · rfl
  · exact walk_loop_lookup_state _ _ _ _ _

/-- Lifting of `walk_loop_create_of_lookup` to `paging_walk`. -/
theorem paging_walk_create_of_lookup {s : MachineState} {root vaddr level p : Nat}
    (hw : (paging_walk s root vaddr level false).1 = some p) :
    paging_walk s root vaddr level true = (some p, s) := by
  unfold paging_walk at hw ⊢
  split at hw
  · exact absurd hw (by simp)
  · next h0 =>
    rw [if_neg h0]
    exact walk_loop_create_of_lookup _ _ _ _ _ _ hw

/-- Lifting of `walk_loop_lookup_congr` to `paging_walk`. -/
theorem paging_walk_lookup_congr {s t : MachineState} {root vaddr level p : Nat}
    (hw : (paging_walk s root vaddr level false).1 = some p)
    (hp : paging_check_flags s p PAGE_PRESENT = false)
    (hmem : ∀ a, a ≠ p → t.mem a = s.mem a) :
    paging_walk t root vaddr level false = (some p, t) := by
  unfold paging_walk at hw ⊢
  split at hw
  · exact absurd hw (by simp)
  · next h0 =>
    rw [if_neg h0]
    exact walk_loop_lookup_congr _ _ _ _ _ _ _ hw hp hmem

/-! ### Entry-operation lemmas -/

theorem writeEntry_mem_self (s : MachineState) (p v : Nat) :
    (writeEntry s p v).mem p = v := by
  simp [writeEntry]

theorem writeEntry_mem_ne {a p : Nat} (s : MachineState) (v : Nat) (h : a ≠ p) :
    (writeEntry s p v).mem a = s.mem a := by
  simp [writeEntry, h]

theorem check_flags_PRESENT (s : MachineState) (p : Nat) :
    paging_check_flags s p PAGE_PRESENT
      = ((s.mem p &&& PAGE_PRESENT) == PAGE_PRESENT) := by
  rw [paging_check_flags, if_neg (by decide)]
  rfl

/-- The word and the rest of memory after the two stores `__paging_map`
performs on its resolved leaf entry (`paging_set_flags` with a legal mask,
then `paging_set_paddr` with an aligned address). -/
theorem map_written_state {p flags paddr : Nat} (s : MachineState)
    (hfA : flags &&& PAGE_ADDR = 0) (hpa : paddr % PAGE_SIZE = 0) :
    (paging_set_paddr (paging_set_flags s p flags) p paddr).mem p
        = ((s.mem p ||| flags) &&& not64 PAGE_ADDR) ||| (paddr &&& PAGE_ADDR)
    ∧ ∀ a, a ≠ p →
      (paging_set_paddr (paging_set_flags s p flags) p paddr).mem a = s.mem a := by
  have h1 : ¬ (flags &&& PAGE_ADDR ≠ 0) := by simp [hfA]
  have h2 : ¬ (paddr % PAGE_SIZE ≠ 0) := by simp [hpa]
  constructor
  · simp [paging_set_paddr, paging_set_flags, writeEntry, readEntry, h1, h2]
  · intro a ha
    simp [paging_set_paddr, paging_set_flags, writeEntry, readEntry, h1, h2, ha]

/-- Shape of `__paging_map` when the resolved leaf entry is present. -/
theorem __paging_map_conflict {s : MachineState} {root vaddr paddr flags p : Nat}
    (hroot : root ≠ 0) (hva : vaddr % PAGE_SIZE = 0)
    (hw : (paging_walk s root vaddr PML1 false).1 = some p)
    (hp : paging_check_flags s p PAGE_PRESENT = true) :
    __paging_map s root vaddr paddr flags = (s, MapResult.conflict) := by
  have hcw : paging_walk s root vaddr PML1 true = (some p, s) :=
    paging_walk_create_of_lookup hw
  simp [__paging_map, hroot, hva, hcw, hp]

/-- Shape of `__paging_map` when the resolved leaf entry is not present. -/
theorem __paging_map_ok {s : MachineState} {root vaddr paddr flags p : Nat}
    (hroot : root ≠ 0) (hva : vaddr % PAGE_SIZE = 0) (hpa : paddr % PAGE_SIZE = 0)
    (hw : (paging_walk s root vaddr PML1 false).1 = some p)
    (hp : paging_check_flags s p PAGE_PRESENT = false) :
    __paging_map s root vaddr paddr flags
      = (paging_set_paddr (paging_set_flags s p flags) p paddr, MapResult.ok) := by
  have hcw : paging_walk s root vaddr PML1 true = (some p, s) :=
    paging_walk_create_of_lookup hw
  simp [__paging_map, hroot, hva, hpa, hcw, hp]

/-! ### Concrete states used by witnesses and counterexamples -/

/-- Concrete environment for `paging_create`: the allocator will hand out
frame `0x2000`, and the stale word at `0x2008` (which becomes entry 1 of
the new table) holds 3, whose present bit is set. -/
def createBugState : MachineState :=
  { mem := fun a => if a = 0x2008 then 3 else 0,
    nextFree := 0x2000, tlbInv := [], cr3 := 0 }

/-- Concrete state whose tables for vaddr 0 are all present: root `0x1000`
points to `0x2000`, which points to `0x3000`, which points to `0x4000`;
the leaf entry (word `0x4000`) is zero, hence not present. -/
def pathState : MachineState :=
  { mem := fun a =>
      if a = 0x1000 then 0x2001
      else if a = 0x2000 then 0x3001
      else if a = 0x3000 then 0x4001
      else 0,
    nextFree := 0x10000, tlbInv := [], cr3 := 0x1000 }

/-- Concrete state whose memory is all zero: no entry is present. -/
def zeroState : MachineState :=
  { mem := fun _ => 0, nextFree := 0x10000, tlbInv := [], cr3 := 0x1000 }

/-! ### Claims -/

/-- C1: the claim says every table returned by `paging_create` has all 512
entries zero, so no entry of a fresh table is present.  The code is wrong:
`memset(ptable, 0, sizeof(ptable))` takes the size of the pointer (8
bytes), so only entry 0 is cleared.  At the concrete failing input below,
entry 1 of the freshly created table still holds the allocator frame's
stale word 3, and its present flag checks as set. -/
theorem claim_C1 :
    (paging_create createBugState).1 = 0x2000
    ∧ ((paging_create createBugState).2).mem (0x2000 + 8 * 0) = 0
    ∧ ((paging_create createBugState).2).mem (0x2000 + 8 * 1) = 3
    ∧ paging_check_flags (paging_create createBugState).2 (0x2000 + 8 * 1)
        PAGE_PRESENT = true := by
  refine ⟨?_, ?_, ?_, ?_⟩ <;> decide

/-- C4: for a non-null root and a page-aligned vaddr whose intermediate
tables are all present (the lookup walk resolves a leaf entry), after
`__paging_unmap` the leaf entry's raw value is exactly zero, regardless of
what the entry held before. -/
theorem claim_C4 (s : MachineState) (root vaddr p : Nat)
    (hroot : root ≠ 0) (hva : vaddr % PAGE_SIZE = 0)
    (hw : (paging_walk s root vaddr PML1 false).1 = some p) :
    (__paging_unmap s root vaddr).2 = UnmapResult.ok
    ∧ ((__paging_unmap s root vaddr).1).mem p = 0 := by
  have hst := paging_walk_lookup_state s root vaddr PML1
  have hfull : paging_walk s root vaddr PML1 false = (some p, s) :=
    Prod.ext_iff.mpr ⟨hw, hst⟩
  refine ⟨?_, ?_⟩ <;> simp [__paging_unmap, hroot, hva, hfull, writeEntry]

/-- Witness for C4 at the concrete present-path state. -/
theorem claim_C4_witness :
    ((0x1000 : Nat) ≠ 0) ∧ ((0 : Nat) % PAGE_SIZE = 0)
    ∧ (paging_walk pathState 0x1000 0 PML1 false).1 = some 0x4000
    ∧ ((__paging_unmap pathState 0x1000 0).2 = UnmapResult.ok
      ∧ ((__paging_unmap pathState 0x1000 0).1).mem 0x4000 = 0) :=
  ⟨by decide, by decide, by decide,
    claim_C4 pathState 0x1000 0 0x4000 (by decide) (by decide) (by decide)⟩

/-- C7: with a null root table (address 0), `paging_walk`, `__paging_map`
and `__paging_unmap` each return immediately with a failure indicator and
leave the state untouched. -/
theorem claim_C7 (s : MachineState) (vaddr paddr flags level : Nat)
    (create : Bool) :
    paging_walk s 0 vaddr level create = (none, s)
    ∧ __paging_map s 0 vaddr paddr flags = (s, MapResult.nullRoot)
    ∧ __paging_unmap s 0 vaddr = (s, UnmapResult.nullRoot) := by
  refine ⟨?_, ?_, ?_⟩ <;> rfl

/-- C10: when some intermediate table for `vaddr` is not present, the
lookup walk returns the null failure indicator, and `__paging_unmap` then
executes `*pentry = 0` through that null pointer (the `nullStore` outcome
of the model) instead of aborting: unmap of a never-mapped address is not
a safe no-op. -/
theorem claim_C10 (s : MachineState) (root vaddr : Nat)
    (hroot : root ≠ 0) (hva : vaddr % PAGE_SIZE = 0)
    (hw : (paging_walk s root vaddr PML1 false).1 = none) :
    __paging_unmap s root vaddr = (s, UnmapResult.nullStore) := by
  have hst := paging_walk_lookup_state s root vaddr PML1
  have hfull : paging_walk s root vaddr PML1 false = (none, s) :=
    Prod.ext_iff.mpr ⟨hw, hst⟩
  simp [__paging_unmap, hroot, hva, hfull]

/-- Witness for C10 at the all-zero state, where no table is present. -/
theorem claim_C10_witness :
    ((0x1000 : Nat) ≠ 0) ∧ ((0 : Nat) % PAGE_SIZE = 0)
    ∧ (paging_walk zeroState 0x1000 0 PML1 false).1 = none
    ∧ __paging_unmap zeroState 0x1000 0 = (zeroState, UnmapResult.nullStore) :=
  ⟨by decide, by decide, by decide,
    claim_C10 zeroState 0x1000 0 (by decide) (by decide) (by decide)⟩

/-- C2: (i) if the leaf entry resolved for a page-aligned `vaddr` under a
non-null root is already present, `__paging_map` reports a mapping
conflict and leaves the whole state — in particular that entry's raw
value, address field and flags — unchanged; (ii) mapping the same `vaddr`
twice without an intervening unmap leaves the first mapping intact: the
second map returns the state of the first map unchanged, with a conflict. -/
theorem claim_C2 :
    (∀ (s : MachineState) (root vaddr paddr flags p : Nat),
      root ≠ 0 → vaddr % PAGE_SIZE = 0 →
      (paging_walk s root vaddr PML1 false).1 = some p →
      paging_check_flags s p PAGE_PRESENT = true →
      __paging_map s root vaddr paddr flags = (s, MapResult.conflict))
    ∧ (∀ (s : MachineState) (root vaddr paddr flags paddr2 flags2 p : Nat),
      root ≠ 0 → vaddr % PAGE_SIZE = 0 → paddr % PAGE_SIZE = 0 →
      (paging_walk s root vaddr PML1 false).1 = some p →
      paging_check_flags s p PAGE_PRESENT = false →
      flags &&& PAGE_ADDR = 0 → flags &&& PAGE_PRESENT = PAGE_PRESENT →
      __paging_map ((__paging_map s root vaddr paddr flags).1) root vaddr
          paddr2 flags2
        = ((__paging_map s root vaddr paddr flags).1, MapResult.conflict)) := by
  constructor
  · intro s root vaddr paddr flags p hroot hva hw hp
    exact __paging_map_conflict hroot hva hw hp
  · intro s root vaddr paddr flags paddr2 flags2 p hroot hva hpa hw hp hfA hfP
    have hshape := @__paging_map_ok s root vaddr paddr flags p hroot hva hpa hw hp
    have hmm := map_written_state s hfA hpa (p := p)
    have hw2full : paging_walk
        (paging_set_paddr (paging_set_flags s p flags) p paddr) root vaddr
        PML1 false
        = (some p, paging_set_paddr (paging_set_flags s p flags) p paddr) :=
      paging_walk_lookup_congr hw hp hmm.2
    have hchk : paging_check_flags
        (paging_set_paddr (paging_set_flags s p flags) p paddr) p PAGE_PRESENT
        = true := by
      rw [check_flags_PRESENT, hmm.1, present_after_store _ _ _ hfP]
      simp
    have hconf := @__paging_map_conflict
      (paging_set_paddr (paging_set_flags s p flags) p paddr) root vaddr
      paddr2 flags2 p hroot hva
      (by rw [hw2full] : (paging_walk
          (paging_set_paddr (paging_set_flags s p flags) p paddr) root vaddr
          PML1 false).1 = some p)
      hchk
    rw [hshape]
    exact hconf

/-- Witness for C2 at the concrete present-path state: the first map of
vaddr 0 to `0x5000` succeeds, the second map to `0x6000` conflicts and
changes nothing. -/
theorem claim_C2_witness :
    ((0x1000 : Nat) ≠ 0) ∧ ((0 : Nat) % PAGE_SIZE = 0)
    ∧ ((0x5000 : Nat) % PAGE_SIZE = 0)
    ∧ (paging_walk pathState 0x1000 0 PML1 false).1 = some 0x4000
    ∧ paging_check_flags pathState 0x4000 PAGE_PRESENT = false
    ∧ ((3 : Nat) &&& PAGE_ADDR = 0) ∧ ((3 : Nat) &&& PAGE_PRESENT = PAGE_PRESENT)
    ∧ __paging_map ((__paging_map pathState 0x1000 0 0x5000 3).1) 0x1000 0
        0x6000 5
      = ((__paging_map pathState 0x1000 0 0x5000 3).1, MapResult.conflict) :=
  ⟨by decide, by decide, by decide, by decide, by decide, by decide, by decide,
    claim_C2.2 pathState 0x1000 0 0x5000 3 0x6000 5 0x4000 (by decide)
      (by decide) (by decide) (by decide) (by decide) (by decide) (by decide)⟩

/-- C6: round trip.  For page-aligned `vaddr` and `paddr` (the latter in
the 52-bit physical range) and a flag mask containing the present bit and
disjoint from the address field, starting from a state whose leaf entry
for `vaddr` is resolvable and not present, `__paging_map` succeeds, and a
leaf-level walk in the new state resolves the same entry, whose decoded
physical address equals `paddr` and whose present flag is set. -/
theorem claim_C6 (s : MachineState) (root vaddr paddr flags p : Nat)
    (hroot : root ≠ 0) (hva : vaddr % PAGE_SIZE = 0)
    (hpa : paddr % PAGE_SIZE = 0) (hlt : paddr < 2 ^ 52)
    (hw : (paging_walk s root vaddr PML1 false).1 = some p)
    (hp : paging_check_flags s p PAGE_PRESENT = false)
    (hfA : flags &&& PAGE_ADDR = 0)
    (hfP : flags &&& PAGE_PRESENT = PAGE_PRESENT) :
    (__paging_map s root vaddr paddr flags).2 = MapResult.ok
    ∧ (paging_walk ((__paging_map s root vaddr paddr flags).1) root vaddr
        PML1 false).1 = some p
    ∧ paging_get_paddr ((__paging_map s root vaddr paddr flags).1) p = paddr
    ∧ paging_check_flags ((__paging_map s root vaddr paddr flags).1) p
        PAGE_PRESENT = true := by
  have hshape := @__paging_map_ok s root vaddr paddr flags p hroot hva hpa hw hp
  have hmm := map_written_state s hfA hpa (p := p)
  have hw2full : paging_walk
      (paging_set_paddr (paging_set_flags s p flags) p paddr) root vaddr
      PML1 false
      = (some p, paging_set_paddr (paging_set_flags s p flags) p paddr) :=
    paging_walk_lookup_congr hw hp hmm.2
  refine ⟨?_, ?_, ?_, ?_⟩
  · rw [hshape]
  · rw [hshape]
    rw [hw2full]
  · rw [hshape]
    show paging_get_paddr (paging_set_paddr (paging_set_flags s p flags) p paddr)
      p = paddr
    rw [paging_get_paddr, readEntry, hmm.1, set_paddr_addr_field,
      aligned_and_ADDR hpa hlt]
  · rw [hshape]
    show paging_check_flags (paging_set_paddr (paging_set_flags s p flags) p paddr)
      p PAGE_PRESENT = true
    rw [check_flags_PRESENT, hmm.1, present_after_store _ _ _ hfP]
    simp

/-- Witness for C6 at the concrete present-path state. -/
theorem claim_C6_witness :
    ((0x1000 : Nat) ≠ 0) ∧ ((0 : Nat) % PAGE_SIZE = 0)
    ∧ ((0x5000 : Nat) % PAGE_SIZE = 0) ∧ ((0x5000 : Nat) < 2 ^ 52)
    ∧ (paging_walk pathState 0x1000 0 PML1 false).1 = some 0x4000
    ∧ paging_check_flags pathState 0x4000 PAGE_PRESENT = false
    ∧ ((3 : Nat) &&& PAGE_ADDR = 0) ∧ ((3 : Nat) &&& PAGE_PRESENT = PAGE_PRESENT)
    ∧ ((__paging_map pathState 0x1000 0 0x5000 3).2 = MapResult.ok
      ∧ (paging_walk ((__paging_map pathState 0x1000 0 0x5000 3).1) 0x1000 0
          PML1 false).1 = some 0x4000
      ∧ paging_get_paddr ((__paging_map pathState 0x1000 0 0x5000 3).1) 0x4000
          = 0x5000
      ∧ paging_check_flags ((__paging_map pathState 0x1000 0 0x5000 3).1)
          0x4000 PAGE_PRESENT = true) :=
  ⟨by decide, by decide, by decide, by decide, by decide, by decide, by decide,
    by decide,
    claim_C6 pathState 0x1000 0 0x5000 3 0x4000 (by decide) (by decide)
      (by decide) (by decide) (by decide) (by decide) (by decide) (by decide)⟩

/-- C3 counterexample: the claim says every `__paging_unmap` (unmap with
an explicit root) invalidates the virtual address in the local TLB after
zeroing the leaf entry.  At this concrete input the unmap succeeds and
zeroes the leaf entry, yet the TLB-invalidation trace stays empty: no
`invlpg` is issued by `__paging_unmap`. -/
theorem claim_C3_counterexample :
    (__paging_unmap pathState 0x1000 0).2 = UnmapResult.ok
    ∧ ((__paging_unmap pathState 0x1000 0).1).mem 0x4000 = 0
    ∧ ((__paging_unmap pathState 0x1000 0).1).tlbInv = [] := by
  refine ⟨?_, ?_, ?_⟩ <;> decide

/-- C3 amended: `__paging_unmap` itself never invalidates the TLB (the
invalidation trace is left unchanged by every call); the translation-cache
invalidation is performed by the implicit-root wrapper `paging_unmap`,
which issues `invlpg` on the virtual address after `__paging_unmap`
returns. -/
theorem claim_C3 :
    (∀ (s : MachineState) (root vaddr : Nat),
      ((__paging_unmap s root vaddr).1).tlbInv = s.tlbInv)
    ∧ (∀ (s : MachineState) (vaddr : Nat),
      ((paging_unmap s vaddr).1).tlbInv = vaddr :: s.tlbInv) := by
  have h1 : ∀ (s : MachineState) (root vaddr : Nat),
      ((__paging_unmap s root vaddr).1).tlbInv = s.tlbInv := by
    intro s root vaddr
    by_cases hroot : root = 0
    · simp [__paging_unmap, hroot]
    · simp only [__paging_unmap, if_neg hroot]
      have hst := paging_walk_lookup_state s root
        (if vaddr % PAGE_SIZE ≠ 0 then ALIGN_DOWN vaddr PAGE_SIZE else vaddr) PML1
      rcases hE : paging_walk s root
          (if vaddr % PAGE_SIZE ≠ 0 then ALIGN_DOWN vaddr PAGE_SIZE else vaddr)
          PML1 false with ⟨o, s1⟩
      rw [hE] at hst
      simp only at hst
      cases o with
      | none => simp [hst]
      | some pentry => simp [writeEntry, hst]
  refine ⟨h1, ?_⟩
  intro s vaddr
  simp [paging_unmap, h1]

/-- C5: flag and address fields of an entry are mutually isolated.  A mask
overlapping the address range makes `paging_set_flags` and
`paging_clear_flags` leave the state entirely unchanged and makes
`paging_check_flags` return false; with any mask, neither flag operation
changes the decoded address field; and `paging_set_paddr` replaces only
the address field, leaving every bit outside it unchanged. -/
theorem claim_C5 (s : MachineState) (p mask : Nat) (hm : mask < 2 ^ 64)
    (he : s.mem p < 2 ^ 64) :
    (mask &&& PAGE_ADDR ≠ 0 →
      paging_set_flags s p mask = s ∧ paging_clear_flags s p mask = s
      ∧ paging_check_flags s p mask = false)
    ∧ paging_get_paddr (paging_set_flags s p mask) p = paging_get_paddr s p
    ∧ paging_get_paddr (paging_clear_flags s p mask) p = paging_get_paddr s p
    ∧ ∀ pa i, i < 12 ∨ 52 ≤ i →
        ((paging_set_paddr s p pa).mem p).testBit i = (s.mem p).testBit i := by
  refine ⟨?_, ?_, ?_, ?_⟩
  · intro hover
    refine ⟨?_, ?_, ?_⟩ <;>
      simp [paging_set_flags, paging_clear_flags, paging_check_flags, hover]
  · by_cases h : mask &&& PAGE_ADDR = 0
    · simp [paging_set_flags, paging_get_paddr, readEntry, writeEntry, h,
        or_flags_and_ADDR _ _ h]
    · simp [paging_set_flags, paging_get_paddr, h]
  · by_cases h : mask &&& PAGE_ADDR = 0
    · simp [paging_clear_flags, paging_get_paddr, readEntry, writeEntry, h,
        andnot_flags_and_ADDR _ _ h hm]
    · simp [paging_clear_flags, paging_get_paddr, h]
  · intro pa i hi
    simp only [paging_set_paddr, readEntry]
    rw [writeEntry_mem_self]
    exact set_paddr_flags_field _ he hi

/-- Witness for C5 at a concrete state, entry and mask. -/
theorem claim_C5_witness :
    ((2 : Nat) < 2 ^ 64) ∧ (zeroState.mem 0x1000 < 2 ^ 64)
    ∧ (((2 : Nat) &&& PAGE_ADDR ≠ 0 →
        paging_set_flags zeroState 0x1000 2 = zeroState
        ∧ paging_clear_flags zeroState 0x1000 2 = zeroState
        ∧ paging_check_flags zeroState 0x1000 2 = false)
      ∧ paging_get_paddr (paging_set_flags zeroState 0x1000 2) 0x1000
          = paging_get_paddr zeroState 0x1000
      ∧ paging_get_paddr (paging_clear_flags zeroState 0x1000 2) 0x1000
          = paging_get_paddr zeroState 0x1000
      ∧ ∀ pa i, i < 12 ∨ 52 ≤ i →
          ((paging_set_paddr zeroState 0x1000 pa).mem 0x1000).testBit i
            = (zeroState.mem 0x1000).testBit i) :=
  ⟨by decide, by decide, claim_C5 zeroState 0x1000 2 (by decide) (by decide)⟩

/-- C8: alignment correction.  For a page-aligned address `a` and a
sub-page offset `0 < d < PAGE_SIZE`, calling `paging_walk`,
`__paging_map` (in either its virtual or its physical address argument),
`__paging_unmap` or `paging_set_paddr` with `a + d` produces exactly the
same result and state change as calling it with `a`. -/
theorem claim_C8 (s : MachineState) (root ptr va a d paddr flags level : Nat)
    (create : Bool) (ha : a % PAGE_SIZE = 0) (hd0 : 0 < d) (hd : d < PAGE_SIZE)
    (hlt : a + d < 2 ^ 64) :
    paging_walk s root (a + d) level create = paging_walk s root a level create
    ∧ __paging_map s root (a + d) paddr flags = __paging_map s root a paddr flags
    ∧ __paging_map s root va (a + d) flags = __paging_map s root va a flags
    ∧ __paging_unmap s root (a + d) = __paging_unmap s root a
    ∧ paging_set_paddr s ptr (a + d) = paging_set_paddr s ptr a := by
  have hAD : ALIGN_DOWN (a + d) PAGE_SIZE = a := ALIGN_DOWN_add ha hd hlt
  have hmod : (a + d) % PAGE_SIZE ≠ 0 := by
    have h1 : a % 4096 = 0 := ha
    have h2 : d < 4096 := hd
    show (a + d) % 4096 ≠ 0
    omega
  have hmoda : ¬ (a % PAGE_SIZE ≠ 0) := by simp [ha]
  refine ⟨?_, ?_, ?_, ?_, ?_⟩
  · simp [paging_walk, hmod, hAD, hmoda]
  · simp [__paging_map, hmod, hAD, hmoda]
  · simp [__paging_map, hmod, hAD, hmoda]
  · simp [__paging_unmap, hmod, hAD, hmoda]
  · simp [paging_set_paddr, hmod, hAD, hmoda]

/-- Witness for C8 at concrete inputs (`a = 0x1000`, `d = 1`). -/
theorem claim_C8_witness :
    ((0x1000 : Nat) % PAGE_SIZE = 0) ∧ ((0 : Nat) < 1) ∧ ((1 : Nat) < PAGE_SIZE)
    ∧ ((0x1000 : Nat) + 1 < 2 ^ 64)
    ∧ (paging_walk zeroState 0x1000 (0x1000 + 1) PML1 false
        = paging_walk zeroState 0x1000 0x1000 PML1 false
      ∧ __paging_map zeroState 0x1000 (0x1000 + 1) 0x5000 3
          = __paging_map zeroState 0x1000 0x1000 0x5000 3
      ∧ __paging_map zeroState 0x1000 0 (0x1000 + 1) 3
          = __paging_map zeroState 0x1000 0 0x1000 3
      ∧ __paging_unmap zeroState 0x1000 (0x1000 + 1)
          = __paging_unmap zeroState 0x1000 0x1000
      ∧ paging_set_paddr zeroState 0x2000 (0x1000 + 1)
          = paging_set_paddr zeroState 0x2000 0x1000) :=
  ⟨by decide, by decide, by decide, by decide,
    claim_C8 zeroState 0x1000 0x2000 0 0x1000 1 0x5000 3 PML1 false (by decide)
      (by decide) (by decide) (by decide)⟩

/-- C9: for every fault error code, the page-fault handler emits, after
the two header lines, exactly one diagnostic line per semantic bit
(present violation, read/write, user/supervisor, reserved bit,
instruction fetch, protection key, SGX), each selected solely by that
single bit of the error code, and it always ends in the non-returning
panic. -/
theorem claim_C9 (cr2 ec : Nat) :
    page_fault_intr_handler cr2 ec =
      { lines := [PFLine.faultAddr cr2, PFLine.errCode ec,
          if ec.testBit 0 then .protViolation else .nonPresent,
          if ec.testBit 1 then .writeAccess else .readAccess,
          if ec.testBit 2 then .userMode else .supervisorMode,
          if ec.testBit 3 then .reservedBit else .noReservedBit,
          if ec.testBit 4 then .instrFetch else .noInstrFetch,
          if ec.testBit 5 then .pkViolation else .noPkViolation,
          if ec.testBit 15 then .sgxViolation else .noSgx],
        panicked := true }
    ∧ (page_fault_intr_handler cr2 ec).lines.length = 9 := by
  have key : ∀ k : Nat, (ec &&& 2 ^ k ≠ 0) ↔ ec.testBit k = true := by
    intro k
    rw [Nat.and_two_pow]
    cases h : ec.testBit k <;> simp [h]
  have e0 : (ec &&& PAGE_FAULT_P_MASK ≠ 0) ↔ ec.testBit 0 = true := by
    rw [show PAGE_FAULT_P_MASK = 2 ^ 0 by decide]
    exact key 0
  have e1 : (ec &&& PAGE_FAULT_WR_MASK ≠ 0) ↔ ec.testBit 1 = true := by
    rw [show PAGE_FAULT_WR_MASK = 2 ^ 1 by decide]
    exact key 1
  have e2 : (ec &&& PAGE_FAULT_US_MASK ≠ 0) ↔ ec.testBit 2 = true := by
    rw [show PAGE_FAULT_US_MASK = 2 ^ 2 by decide]
    exact key 2
  have e3 : (ec &&& PAGE_FAULT_RSVD_MASK ≠ 0) ↔ ec.testBit 3 = true := by
    rw [show PAGE_FAULT_RSVD_MASK = 2 ^ 3 by decide]
    exact key 3
  have e4 : (ec &&& PAGE_FAULT_IF_MASK ≠ 0) ↔ ec.testBit 4 = true := by
    rw [show PAGE_FAULT_IF_MASK = 2 ^ 4 by decide]
    exact key 4
  have e5 : (ec &&& PAGE_FAULT_PK_MASK ≠ 0) ↔ ec.testBit 5 = true := by
    rw [show PAGE_FAULT_PK_MASK = 2 ^ 5 by decide]
    exact key 5
  have e6 : (ec &&& PAGE_FAULT_SGX_MASK ≠ 0) ↔ ec.testBit 15 = true := by
    rw [show PAGE_FAULT_SGX_MASK = 2 ^ 15 by decide]
    exact key 15
  constructor
  · simp [page_fault_intr_handler, e0, e1, e2, e3, e4, e5, e6]
  · rfl

end Kraken
